import Mathlib

/-!
Verification of `verify-grpc-logs.py`: a shallow embedding of the script's
data model and operations, with theorems settling the specification claims.

Modelling conventions:
* JSON values are the inductive `Json`; Python dicts preserve insertion order,
  so objects are association lists.
* `json.dumps` is modelled by `dumps` (compact, default separators) and
  `dumpsInd` (with `indent=2`), including Python's `ensure_ascii` escaping.
* Python string slicing `s[:n]` is `pyTake` (Python slices by code points,
  matching `String.data : List Char`).
* Python truthiness of strings/dicts (empty is falsy) is modelled explicitly
  at each use site, mirroring the source.
* Dynamic failures that Python would raise (e.g. calling `.get` on a
  non-dict) are modelled by `Option`, `none` standing for the raised error.
-/

/-- JSON values as decoded by `json.loads`.  Objects keep key order, as
Python dicts do.  Numbers are modelled as integers (the script never
constructs or inspects fractional values). -/
inductive Json where
  | null : Json
  | bool : Bool → Json
  | num : Int → Json
  | str : String → Json
  | arr : List Json → Json
  | obj : List (String × Json) → Json
deriving Repr

/-- Lower-case hex digit, as used by Python's `\uXXXX` escapes. -/
def hexDigit (d : Nat) : Char :=
  if d < 10 then Char.ofNat (48 + d) else Char.ofNat (87 + d)

/-- Four lower-case hex digits. -/
def hex4 (n : Nat) : List Char :=
  [hexDigit (n / 4096 % 16), hexDigit (n / 256 % 16), hexDigit (n / 16 % 16), hexDigit (n % 16)]

/-- Escaping of one character inside a JSON string literal, following
Python's `json.dumps` with `ensure_ascii=True`: the two-character escapes
for `"`—`\`—control characters with short forms, `\uXXXX` for the other
control characters and all non-ASCII characters (surrogate pairs beyond
the BMP). -/
def escapeChar (c : Char) : List Char :=
  if c = '"' then ['\\', '"']
  else if c = '\\' then ['\\', '\\']
  else if c = '\n' then ['\\', 'n']
  else if c = '\t' then ['\\', 't']
  else if c = '\r' then ['\\', 'r']
  else if c.toNat = 8 then ['\\', 'b']
  else if c.toNat = 12 then ['\\', 'f']
  else if c.toNat < 32 then '\\' :: 'u' :: hex4 c.toNat
  else if c.toNat < 128 then [c]
  else if c.toNat < 65536 then '\\' :: 'u' :: hex4 c.toNat
  else
    ('\\' :: 'u' :: hex4 (55296 + (c.toNat - 65536) / 1024)) ++
      ('\\' :: 'u' :: hex4 (56320 + (c.toNat - 65536) % 1024))

/-- A JSON string literal: quotes around the escaped characters. -/
def quoteStr (s : String) : String :=
  "\"" ++ String.mk (s.data.flatMap escapeChar) ++ "\""

mutual

/-- Model of `json.dumps` with default arguments: separators `", "` and `": "`. -/
def dumps : Json → String
  | Json.null => "null"
  | Json.bool true => "true"
  | Json.bool false => "false"
  | Json.num n => toString n
  | Json.str s => quoteStr s
  | Json.arr xs => "[" ++ dumpsArr xs ++ "]"
  | Json.obj kvs => "\x7b" ++ dumpsObj kvs ++ "\x7d"

/-- Array elements joined by `", "`. -/
def dumpsArr : List Json → String
  | [] => ""
  | [x] => dumps x
  | x :: y :: rest => dumps x ++ ", " ++ dumpsArr (y :: rest)

/-- Object members `"key": value` joined by `", "`. -/
def dumpsObj : List (String × Json) → String
  | [] => ""
  | [(k, v)] => quoteStr k ++ ": " ++ dumps v
  | (k, v) :: p :: rest => quoteStr k ++ ": " ++ dumps v ++ ", " ++ dumpsObj (p :: rest)

end

/-- A run of `n` spaces. -/
def spaces (n : Nat) : String :=
  String.mk (List.replicate n ' ')

mutual

/-- Model of `json.dumps` with `indent=2`: separators `","`+newline and `": "`,
members indented two spaces beyond the current level `lvl`. -/
def dumpsInd : Json → Nat → String
  | Json.arr [], _ => "[]"
  | Json.obj [], _ => "\x7b\x7d"
  | Json.arr (x :: xs), lvl =>
    "[\n" ++ dumpsIndArr (x :: xs) (lvl + 2) ++ "\n" ++ spaces lvl ++ "]"
  | Json.obj (kv :: kvs), lvl =>
    "\x7b\n" ++ dumpsIndObj (kv :: kvs) (lvl + 2) ++ "\n" ++ spaces lvl ++ "\x7d"
  | j, _ => dumps j

/-- Indented array elements joined by `",\n"`. -/
def dumpsIndArr : List Json → Nat → String
  | [], _ => ""
  | [x], lvl => spaces lvl ++ dumpsInd x lvl
  | x :: y :: rest, lvl => spaces lvl ++ dumpsInd x lvl ++ ",\n" ++ dumpsIndArr (y :: rest) lvl

/-- Indented object members joined by `",\n"`. -/
def dumpsIndObj : List (String × Json) → Nat → String
  | [], _ => ""
  | [(k, v)], lvl => spaces lvl ++ quoteStr k ++ ": " ++ dumpsInd v lvl
  | (k, v) :: p :: rest, lvl =>
    spaces lvl ++ quoteStr k ++ ": " ++ dumpsInd v lvl ++ ",\n" ++ dumpsIndObj (p :: rest) lvl

end

/-- Python `str.lower()` (ASCII range, which covers the `ensure_ascii`
output of `dumps`). -/
def lowerStr (s : String) : String :=
  String.mk (s.data.map Char.toLower)

/-- Python slicing `s[:n]`: the first `n` code points. -/
def pyTake (s : String) (n : Nat) : String :=
  String.mk (s.data.take n)

/-- Python `pat in s` for strings: `pat` occurs contiguously in `s`. -/
def strContains (s pat : String) : Prop :=
  pat.data <:+: s.data

instance strContainsDecidable (s pat : String) : Decidable (strContains s pat) :=
  List.decidableInfix pat.data s.data

/-- The boolean form of `strContains`, used where the script stores the
result of `in` into a dict. -/
def strContainsB (s pat : String) : Bool :=
  decide (strContains s pat)

theorem strContainsB_iff {s pat : String} : strContainsB s pat = true ↔ strContains s pat :=
  decide_eq_true_iff

/-- Assignment `m[k] = v` on a Python dict modelled as an association
list: update in place if the key is present, else append. -/
def dictInsert {α : Type} (m : List (String × α)) (k : String) (v : α) : List (String × α) :=
  if m.any (fun p => p.1 == k) then
    m.map (fun p => if p.1 == k then (k, v) else p)
  else
    m ++ [(k, v)]

/-- Model of `check_fields_in_response` (lines 126-139): serialize the log entry,
lower-case it, and record for each expected field whether its lower-cased
name occurs as a substring. -/
def check_fields_in_response (log_entry : Json) (expected_fields : List String) :
    List (String × Bool) :=
  let log_str := lowerStr (dumps log_entry)
  expected_fields.foldl (fun results field => dictInsert results field (strContainsB log_str (lowerStr field))) []

/-- One entry of `API_FUNCTIONS` (lines 49-75). -/
structure ApiFunction where
  name : String
  expected_fields : List String
  description : String

/-- The five hard-coded function descriptors (lines 49-75). -/
def API_FUNCTIONS : List ApiFunction :=
  [{ name := "GetDeliveryOrder",
     expected_fields := ["coordinates", "address", "latitude", "longitude"],
     description := "Single order lookup with address/coordinates" },
   { name := "GetTripDetails",
     expected_fields := ["orders", "coordinates", "address", "tripID"],
     description := "All orders in a trip with addresses" },
   { name := "GetRouteDetailsForTrip",
     expected_fields := ["routeSegments", "planned", "actual"],
     description := "Route waypoints (planned vs actual)" },
   { name := "GetLocationsDetails",
     expected_fields := ["locations", "locationNumber", "coordinates", "address"],
     description := "Restaurant address/coordinates by location_number" },
   { name := "GetDeliveryDriverByID",
     expected_fields := ["driver", "coordinates", "driverStatus"],
     description := "Driver current GPS location" }]

/-- The `i`-th function descriptor. -/
def apiAt (i : Nat) : ApiFunction :=
  API_FUNCTIONS.getD i { name := "", expected_fields := [], description := "" }

/-- The search request body built by `search_logs` (lines 83-99).
Timestamps are modelled in seconds since the epoch: the script formats
`datetime` values with `%Y-%m-%dT%H:%M:%SZ`, which drops the microsecond
component, i.e. floors the instant to second precision; that formatting is
injective, so the seconds value determines the formatted string. -/
structure SearchBody where
  query : String
  fromTs : Int
  toTs : Int
  sort : String
  limit : Nat

/-- Model of the query-construction part of `search_logs` (lines 83-99): `now` is the
current wall-clock instant in microseconds (the resolution of
`datetime.utcnow()`); `from_time = now - timedelta(days=7)`; both are
formatted at second precision. -/
def search_body (now_us : Int) (function_name : String) (limit : Nat) : SearchBody :=
  let from_us := now_us - 7 * 86400 * 1000000
  { query := "env:prod \"handled request for " ++ function_name ++ "\"",
    fromTs := from_us / 1000000,
    toTs := now_us / 1000000,
    sort := "-timestamp",
    limit := limit }

/-- The outcome of the HTTP POST issued by `search_logs`: success with a
decoded JSON body, an `HTTPError` with status code, error body and the
`e.fp` flag, or a `URLError` with a reason. -/
inductive HttpOutcome where
  | success : Json → HttpOutcome
  | httpError : Nat → String → Bool → HttpOutcome
  | urlError : String → HttpOutcome

/-- What `search_logs` returns and prints for a given HTTP outcome. -/
structure SearchOutput where
  result : Json
  printed : List String

/-- The empty-result sentinel returned on failures (lines 120 and 123). -/
def sentinel : Json := Json.obj [("data", Json.arr [])]

/-- Error handling of `search_logs` (lines 113-123): success returns the
parsed body; `HTTPError` prints the status code and the first 500
characters of the error body (empty when `e.fp` is unset) and returns the
sentinel; `URLError` prints the reason and returns the sentinel. -/
def search_logs_handle : HttpOutcome → SearchOutput
  | HttpOutcome.success body => { result := body, printed := [] }
  | HttpOutcome.httpError code errBody hasFp =>
    { result := sentinel,
      printed := ["  ERROR: HTTP " ++ toString code,
                  "  Response: " ++ (if hasFp then pyTake errBody 500 else "")] }
  | HttpOutcome.urlError reason =>
    { result := sentinel, printed := ["  ERROR: " ++ reason] }

/-- Model of `response.get("data", [])` followed by `len`/indexing (lines 190-191):
the vendor contract makes `data` a JSON array; a response that is not an
object, or whose `data` is not an array, is outside the modelled shapes
and mapped to `none`. -/
def respData (response : Json) : Option (List Json) :=
  match response with
  | Json.obj kvs =>
    match List.lookup "data" kvs with
    | none => some []
    | some (Json.arr xs) => some xs
    | some _ => none
  | _ => none

/-- The summary record appended when no logs were found (lines 195-200).
Note it has no `fields_missing` key. -/
def noLogsRecord (name : String) : Json :=
  Json.obj [("function", Json.str name),
            ("logs_found", Json.num 0),
            ("fields_found", Json.arr []),
            ("status", Json.str "NO_LOGS")]

/-- The summary record appended after analysing the first log entry
(lines 226-232). -/
def foundRecord (name : String) (count : Nat) (found missing : List String) : Json :=
  Json.obj [("function", Json.str name),
            ("logs_found", Json.num count),
            ("fields_found", Json.arr (found.map Json.str)),
            ("fields_missing", Json.arr (missing.map Json.str)),
            ("status", Json.str (if found = [] then "NO_EXPECTED_FIELDS" else "FOUND"))]

/-- One iteration of the loop in `main` (lines 186-232): search result in,
summary record out (`none` models a response outside the vendor shapes). -/
def process_function (api : ApiFunction) (response : Json) : Option Json :=
  match respData response with
  | none => none
  | some [] => some (noLogsRecord api.name)
  | some (first_log :: rest) =>
    let field_results := check_fields_in_response first_log api.expected_fields
    let found_fields := (field_results.filter (fun p => p.2)).map Prod.fst
    let missing_fields := (field_results.filter (fun p => !p.2)).map Prod.fst
    some (foundRecord api.name (rest.length + 1) found_fields missing_fields)

/-- Key lookup on a summary record. -/
def getKey (r : Json) (k : String) : Option Json :=
  match r with
  | Json.obj kvs => List.lookup k kvs
  | _ => none

/-- The record's `status` value, when it is a string. -/
def getStatusStr (r : Json) : Option String :=
  match getKey r "status" with
  | some (Json.str s) => some s
  | _ => none

/-- The test `r["status"] == "FOUND"` of lines 249 and 257. -/
def statusIsFound (r : Json) : Bool :=
  match getStatusStr r with
  | some s => s == "FOUND"
  | none => false

/-- The keys of a summary record, in insertion order. -/
def recordKeys (r : Json) : List String :=
  match r with
  | Json.obj kvs => kvs.map Prod.fst
  | _ => []

/-- The per-function loop of `main` over (descriptor, response) pairs:
each iteration appends exactly one summary record. -/
def summarize : List (ApiFunction × Json) → Option (List Json)
  | [] => some []
  | p :: rest =>
    match process_function p.1 p.2, summarize rest with
    | some rec, some s => some (rec :: s)
    | _, _ => none

/-- The `results_summary` list as accumulated by `main` for one response per
function descriptor. -/
def results_summary (responses : List Json) : Option (List Json) :=
  summarize (API_FUNCTIONS.zip responses)

/-- The final verdict line printed by `main` (lines 257-266). -/
def conclusion (results_summary : List Json) : String :=
  let found_count := (results_summary.filter statusIsFound).length
  let total := results_summary.length
  if found_count = total then
    "✅ All " ++ toString total ++ " API functions have logs with expected data"
  else if 0 < found_count then
    "⚠️  " ++ toString found_count ++ "/" ++ toString total ++ " API functions have logs with expected data"
  else
    "❌ No API functions found with expected data in logs"

/-- Model of `extract_response_body` (lines 142-163).  `attrs.get(k, {})` is
lookup-with-default; calling `.get` on a non-dict value raises in Python,
modelled by `none`.  The candidate loop keeps a value only when it is
truthy (non-empty) and a dict or str; dicts are pretty-printed; everything
is sliced to 2000 characters, as is the final fallback `json.dumps(attrs,
indent=2)`. -/
def extract_response_body (log_entry : List (String × Json)) : Option String :=
  match (List.lookup "attributes" log_entry).getD (Json.obj []) with
  | Json.obj akvs =>
    match (List.lookup "attributes" akvs).getD (Json.obj []) with
    | Json.obj ikvs =>
      let possible_paths : List (Option Json) :=
        [List.lookup "response_body" ikvs,
         List.lookup "response" ikvs,
         List.lookup "body" ikvs,
         List.lookup "message" akvs,
         some (Json.obj ikvs)]
      let firstHit := possible_paths.findSome? (fun path =>
        match path with
        | some (Json.obj []) => none
        | some (Json.obj (kv :: kvs)) => some (pyTake (dumpsInd (Json.obj (kv :: kvs)) 0) 2000)
        | some (Json.str s) => if s = "" then none else some (pyTake s 2000)
        | _ => none)
      some (firstHit.getD (pyTake (dumpsInd (Json.obj akvs) 0) 2000))
    | _ => none
  | _ => none

/-- Modelled from the spec: the sample drawn from a single candidate value
when that value is a non-empty string or mapping (mappings are
pretty-printed), and nothing otherwise. -/
def sampleOfValue : Json → Option String
  | Json.obj [] => none
  | Json.obj (kv :: kvs) => some (pyTake (dumpsInd (Json.obj (kv :: kvs)) 0) 2000)
  | Json.str s => if s = "" then none else some (pyTake s 2000)
  | _ => none

/-- Modelled from the spec (the amended C6 reading): try the candidate
locations in priority order, take the first present non-empty value of
string or mapping type, and otherwise fall back to the pretty-printed
`attributes` mapping; crash behaviour on non-mapping `attributes` values
matches `extract_response_body`. -/
def extract_spec_amended (log_entry : List (String × Json)) : Option String :=
  match (List.lookup "attributes" log_entry).getD (Json.obj []) with
  | Json.obj akvs =>
    match (List.lookup "attributes" akvs).getD (Json.obj []) with
    | Json.obj ikvs =>
      let candidates : List (Option Json) :=
        [List.lookup "response_body" ikvs,
         List.lookup "response" ikvs,
         List.lookup "body" ikvs,
         List.lookup "message" akvs,
         some (Json.obj ikvs)]
      some ((candidates.findSome? (fun c => c.bind sampleOfValue)).getD
        (pyTake (dumpsInd (Json.obj akvs) 0) 2000))
    | _ => none
  | _ => none

/-- Modelled from the spec (the literal C6 reading): the first *present*
value of string or mapping type is used, whether or not it is empty. -/
def extract_spec_claimed (log_entry : List (String × Json)) : Option String :=
  match (List.lookup "attributes" log_entry).getD (Json.obj []) with
  | Json.obj akvs =>
    match (List.lookup "attributes" akvs).getD (Json.obj []) with
    | Json.obj ikvs =>
      let candidates : List (Option Json) :=
        [List.lookup "response_body" ikvs,
         List.lookup "response" ikvs,
         List.lookup "body" ikvs,
         List.lookup "message" akvs,
         some (Json.obj ikvs)]
      (candidates.findSome? (fun c => c.bind (fun j =>
        match j with
        | Json.obj kvs => some (pyTake (dumpsInd (Json.obj kvs) 0) 2000)
        | Json.str s => some (pyTake s 2000)
        | _ => none)))
    | _ => none
  | _ => none

/-- Python `str.strip()`: drop whitespace from both ends. -/
def pyStrip (s : String) : String :=
  String.mk (((s.data.dropWhile Char.isWhitespace).reverse.dropWhile Char.isWhitespace).reverse)

/-- Model of `load_env` (lines 21-34): parse `KEY=VALUE` lines from the `.env`
file, modelled as the list of its lines; blank lines, `#` lines and lines
without `=` are skipped; the first `=` splits key from value; both sides
are stripped; later assignments overwrite earlier ones. -/
def load_env (file_lines : List String) : List (String × String) :=
  file_lines.foldl (fun env_vars rawLine =>
    let line := pyStrip rawLine
    if !line.data.isEmpty && !(line.data.head? == some '#') && line.data.contains '=' then
      let key := String.mk (line.data.takeWhile (fun c => c != '='))
      let value := String.mk ((line.data.dropWhile (fun c => c != '=')).drop 1)
      dictInsert env_vars (pyStrip key) (pyStrip value)
    else
      env_vars) []

/-- Python `a or b` on an optional string `a` (absent and empty strings
are falsy). -/
def pyOr (a b : Option String) : Option String :=
  match a with
  | some s => if s = "" then b else some s
  | none => b

/-- Model of `env_vars.get(key) or os.getenv(key)` (lines 39-40); `env` is the
process environment. -/
def resolveCred (vars : List (String × String)) (env : String → Option String)
    (key : String) : Option String :=
  pyOr (List.lookup key vars) (env key)

/-- The module-level `DD_API_KEY` (line 39). -/
def DD_API_KEY_of (file_lines : List String) (env : String → Option String) : Option String :=
  resolveCred (load_env file_lines) env "DD_API_KEY"

/-- The module-level `DD_APP_KEY` (line 40). -/
def DD_APP_KEY_of (file_lines : List String) (env : String → Option String) : Option String :=
  resolveCred (load_env file_lines) env "DD_APP_KEY"

/-- Python `not x` on an optional string: true for absent or empty. -/
def pyFalsy : Option String → Bool
  | none => true
  | some s => s == ""

/-- How a run of the script ends: the fatal credential check (printed
message and exit code), or a completed run with its summary and final
verdict line. -/
inductive RunResult where
  | fatal : String → Nat → RunResult
  | completed : List Json → String → RunResult

/-- The whole script: load credentials (lines 38-44), abort with a
diagnostic and exit code 1 if either is falsy — before any network
activity, which is why the result does not depend on `responses` in that
branch — otherwise run the per-function loop and print the verdict. -/
def run_program (file_lines : List String) (env : String → Option String)
    (responses : List Json) : Option RunResult :=
  let api := DD_API_KEY_of file_lines env
  let app := DD_APP_KEY_of file_lines env
  if pyFalsy api || pyFalsy app then
    some (RunResult.fatal "ERROR: DD_API_KEY and DD_APP_KEY must be set in .env file" 1)
  else
    match results_summary responses with
    | none => none
    | some s => some (RunResult.completed s (conclusion s))

theorem mem_dictInsert {α : Type} {m : List (String × α)} {k : String} {v : α}
    {p : String × α} (hp : p ∈ dictInsert m k v) : p = (k, v) ∨ p ∈ m := by
  unfold dictInsert at hp
  by_cases h : m.any (fun q => q.1 == k)
  · simp only [h, if_true] at hp
    rcases List.mem_map.mp hp with ⟨q, hq, hfq⟩
    by_cases hqk : q.1 == k
    · simp only [hqk, if_true] at hfq
      exact Or.inl hfq.symm
    · simp only [hqk, if_false] at hfq
      exact Or.inr (hfq ▸ hq)
  · simp only [h, if_false] at hp
    rcases List.mem_append.mp hp with h1 | h1
    · exact Or.inr h1
    · exact Or.inl (List.mem_singleton.mp h1)

theorem dictInsert_self {α : Type} (m : List (String × α)) (k : String) (v : α) :
    (k, v) ∈ dictInsert m k v := by
  unfold dictInsert
  by_cases h : m.any (fun q => q.1 == k)
  · simp only [h, if_true]
    rcases List.any_eq_true.mp h with ⟨q, hq, hqk⟩
    refine List.mem_map.mpr ⟨q, hq, ?_⟩
    simp only [hqk, if_true]
  · simp only [h, if_false]
    exact List.mem_append_right _ (List.mem_singleton.mpr rfl)

theorem dictInsert_keep {α : Type} {m : List (String × α)} {f : String} {b : α}
    (hm : (f, b) ∈ m) (k : String) (v : α) : ∃ b', (f, b') ∈ dictInsert m k v := by
  unfold dictInsert
  by_cases h : m.any (fun q => q.1 == k)
  · simp only [h, if_true]
    by_cases hfk : f = k
    · subst hfk
      exact ⟨v, List.mem_map.mpr ⟨(f, b), hm, by simp⟩⟩
    · refine ⟨b, List.mem_map.mpr ⟨(f, b), hm, ?_⟩⟩
      simp [hfk]
  · simp only [h, if_false]
    exact ⟨b, List.mem_append_left _ hm⟩

/-- Invariant of the `check_fields_in_response` fold: every stored value
is the membership test of its own key. -/
theorem foldl_dictInsert_val (g : String → Bool) :
    ∀ (fields : List String) (acc : List (String × Bool)),
      (∀ p ∈ acc, p.2 = g p.1) →
      ∀ p ∈ List.foldl (fun r f => dictInsert r f (g f)) acc fields, p.2 = g p.1 := by
  intro fields
  induction fields with
  | nil => intro acc hacc p hp; exact hacc p hp
  | cons f fs ih =>
    intro acc hacc p hp
    refine ih (dictInsert acc f (g f)) ?_ p hp
    intro q hq
    rcases mem_dictInsert hq with hq1 | hq1
    · subst hq1; rfl
    · exact hacc q hq1

/-- Invariant of the fold: every field of the list ends up as a key. -/
theorem foldl_dictInsert_key (g : String → Bool) :
    ∀ (fields : List String) (acc : List (String × Bool)) (f : String),
      (f ∈ fields ∨ ∃ b, (f, b) ∈ acc) →
      ∃ b, (f, b) ∈ List.foldl (fun r f' => dictInsert r f' (g f')) acc fields := by
  intro fields
  induction fields with
  | nil =>
    intro acc f hf
    rcases hf with hf | hf
    · cases hf
    · exact hf
  | cons f' fs ih =>
    intro acc f hf
    refine ih (dictInsert acc f' (g f')) f ?_
    rcases hf with hf | ⟨b, hb⟩
    · rcases List.mem_cons.mp hf with rfl | hf
      · exact Or.inr ⟨g f, dictInsert_self acc f (g f)⟩
      · exact Or.inl hf
    · exact Or.inr (dictInsert_keep hb f' (g f'))

/-- Invariant of the fold: every key comes from the field list. -/
theorem foldl_dictInsert_src (g : String → Bool) (S : String → Prop) :
    ∀ (fields : List String) (acc : List (String × Bool)),
      (∀ q ∈ acc, S q.1) → (∀ f ∈ fields, S f) →
      ∀ p ∈ List.foldl (fun r f => dictInsert r f (g f)) acc fields, S p.1 := by
  intro fields
  induction fields with
  | nil => intro acc hacc _ p hp; exact hacc p hp
  | cons f fs ih =>
    intro acc hacc hfields p hp
    refine ih (dictInsert acc f (g f)) ?_ (fun f' hf' => hfields f' (List.mem_cons_of_mem _ hf')) p hp
    intro q hq
    rcases mem_dictInsert hq with hq1 | hq1
    · subst hq1; exact hfields f (List.mem_cons_self _ _)
    · exact hacc q hq1

/-- Keys of the fold, for a duplicate-free field list that is disjoint
from the accumulator: the accumulator's keys followed by the fields. -/
theorem foldl_dictInsert_keys (g : String → Bool) :
    ∀ (fields : List String) (acc : List (String × Bool)),
      fields.Nodup → (∀ f ∈ fields, ∀ q ∈ acc, q.1 ≠ f) →
      (List.foldl (fun r f => dictInsert r f (g f)) acc fields).map Prod.fst
        = acc.map Prod.fst ++ fields := by
  intro fields
  induction fields with
  | nil => intro acc _ _; simp
  | cons f fs ih =>
    intro acc hnd hdisj
    have hany : acc.any (fun q => q.1 == f) = false := by
      rw [List.any_eq_false]
      intro q hq
      simpa using hdisj f (List.mem_cons_self _ _) q hq
    have hstep : dictInsert acc f (g f) = acc ++ [(f, g f)] := by
      unfold dictInsert
      simp [hany]
    have hnd' : fs.Nodup := (List.nodup_cons.mp hnd).2
    have hnotmem : f ∉ fs := (List.nodup_cons.mp hnd).1
    have hdisj' : ∀ f' ∈ fs, ∀ q ∈ acc ++ [(f, g f)], q.1 ≠ f' := by
      intro f' hf' q hq
      rcases List.mem_append.mp hq with hq1 | hq1
      · exact hdisj f' (List.mem_cons_of_mem _ hf') q hq1
      · rcases List.mem_singleton.mp hq1 with rfl
        show f ≠ f'
        intro hcontra
        exact hnotmem (hcontra ▸ hf')
    calc (List.foldl (fun r f' => dictInsert r f' (g f')) acc (f :: fs)).map Prod.fst
        = (List.foldl (fun r f' => dictInsert r f' (g f')) (acc ++ [(f, g f)]) fs).map Prod.fst := by
          simp [List.foldl_cons, hstep]
      _ = (acc ++ [(f, g f)]).map Prod.fst ++ fs := ih _ hnd' hdisj'
      _ = acc.map Prod.fst ++ f :: fs := by simp

theorem check_eq_foldl (entry : Json) (fields : List String) :
    check_fields_in_response entry fields
      = List.foldl (fun r f => dictInsert r f ((fun f' => strContainsB (lowerStr (dumps entry)) (lowerStr f')) f)) [] fields := rfl

theorem check_mem_val {entry : Json} {fields : List String} {p : String × Bool}
    (hp : p ∈ check_fields_in_response entry fields) :
    p.2 = strContainsB (lowerStr (dumps entry)) (lowerStr p.1) := by
  rw [check_eq_foldl] at hp
  exact foldl_dictInsert_val _ fields [] (by simp) p hp

theorem check_mem_key (entry : Json) {fields : List String} {f : String} (hf : f ∈ fields) :
    ∃ b, (f, b) ∈ check_fields_in_response entry fields := by
  rw [check_eq_foldl]
  exact foldl_dictInsert_key _ fields [] f (Or.inl hf)

theorem check_mem_src {entry : Json} {fields : List String} {p : String × Bool}
    (hp : p ∈ check_fields_in_response entry fields) : p.1 ∈ fields := by
  rw [check_eq_foldl] at hp
  exact foldl_dictInsert_src _ (fun k => k ∈ fields) fields [] (by simp) (fun _ h => h) p hp

theorem check_keys {entry : Json} {fields : List String} (hnd : fields.Nodup) :
    (check_fields_in_response entry fields).map Prod.fst = fields := by
  rw [check_eq_foldl]
  simpa using foldl_dictInsert_keys _ fields [] hnd (by simp)

/-- The `found_fields` list of `main` (line 209) is non-empty exactly when
some expected field name occurs in the serialized entry. -/
theorem found_fields_ne_nil_iff (entry : Json) (fields : List String) :
    ((check_fields_in_response entry fields).filter (fun p => p.2)).map Prod.fst ≠ []
      ↔ ∃ f ∈ fields, strContains (lowerStr (dumps entry)) (lowerStr f) := by
  constructor
  · intro hne
    rcases List.exists_mem_of_ne_nil _ hne with ⟨f, hf⟩
    rcases List.mem_map.mp hf with ⟨p, hpfilter, rfl⟩
    have hpmem := List.mem_filter.mp hpfilter
    refine ⟨p.1, check_mem_src hpmem.1, ?_⟩
    have hval := check_mem_val hpmem.1
    have : strContainsB (lowerStr (dumps entry)) (lowerStr p.1) = true := by
      rw [← hval]; simpa using hpmem.2
    exact strContainsB_iff.mp this
  · rintro ⟨f, hf, hcont⟩
    rcases check_mem_key entry hf with ⟨b, hb⟩
    have hval := check_mem_val hb
    have hb' : (f, true) ∈ check_fields_in_response entry fields := by
      have hval' : b = strContainsB (lowerStr (dumps entry)) (lowerStr f) := hval
      have hbtrue : b = true := by rw [hval']; exact strContainsB_iff.mpr hcont
      exact hbtrue ▸ hb
    have : (f, true) ∈ (check_fields_in_response entry fields).filter (fun p => p.2) :=
      List.mem_filter.mpr ⟨hb', rfl⟩
    exact List.ne_nil_of_mem (List.mem_map.mpr ⟨(f, true), this, rfl⟩)

theorem process_noLogs (api : ApiFunction) {r : Json} (h : respData r = some []) :
    process_function api r = some (noLogsRecord api.name) := by
  simp [process_function, h]

theorem process_found (api : ApiFunction) {r : Json} {l : Json} {rest : List Json}
    (h : respData r = some (l :: rest)) :
    process_function api r
      = some (foundRecord api.name (rest.length + 1)
          (((check_fields_in_response l api.expected_fields).filter (fun p => p.2)).map Prod.fst)
          (((check_fields_in_response l api.expected_fields).filter (fun p => !p.2)).map Prod.fst)) := by
  simp [process_function, h]

theorem process_isSome {api : ApiFunction} {r : Json} (h : (respData r).isSome = true) :
    (process_function api r).isSome = true := by
  rcases Option.isSome_iff_exists.mp h with ⟨logs, hlogs⟩
  cases logs with
  | nil => simp [process_noLogs api hlogs]
  | cons l rest => simp [process_found api hlogs]

theorem getStatusStr_noLogs (name : String) :
    getStatusStr (noLogsRecord name) = some "NO_LOGS" := by
  simp [getStatusStr, getKey, noLogsRecord, List.lookup]

theorem statusIsFound_noLogs (name : String) :
    statusIsFound (noLogsRecord name) = false := by
  simp [statusIsFound, getStatusStr_noLogs]

theorem getStatusStr_found (name : String) (count : Nat) (found missing : List String) :
    getStatusStr (foundRecord name count found missing)
      = some (if found = [] then "NO_EXPECTED_FIELDS" else "FOUND") := by
  simp [getStatusStr, getKey, foundRecord, List.lookup]

theorem statusIsFound_found (name : String) (count : Nat) (found missing : List String) :
    (statusIsFound (foundRecord name count found missing) = true) ↔ found ≠ [] := by
  by_cases hf : found = []
  · simp [statusIsFound, getStatusStr_found, hf]
  · simp [statusIsFound, getStatusStr_found, hf]

theorem summarize_length :
    ∀ ps : List (ApiFunction × Json),
      (∀ p ∈ ps, (process_function p.1 p.2).isSome = true) →
      (summarize ps).map List.length = some ps.length := by
  intro ps
  induction ps with
  | nil => intro _; simp [summarize]
  | cons p rest ih =>
    intro h
    rcases Option.isSome_iff_exists.mp (h p (List.mem_cons_self _ _)) with ⟨rec, hrec⟩
    have hrest := ih (fun q hq => h q (List.mem_cons_of_mem _ hq))
    cases hs : summarize rest with
    | none => rw [hs] at hrest; simp at hrest
    | some s =>
      rw [hs] at hrest
      have hlen : s.length = rest.length := by simpa using hrest
      simp [summarize, hrec, hs, hlen]

theorem conclusion_all_found (s : List Json) (h : ∀ r ∈ s, statusIsFound r = true) :
    conclusion s = "✅ All " ++ toString s.length ++ " API functions have logs with expected data" := by
  unfold conclusion
  rw [List.filter_eq_self.mpr (by intro a ha; simpa using h a ha)]
  simp

theorem conclusion_none_found (s : List Json) (hne : s ≠ [])
    (h : ∀ r ∈ s, statusIsFound r = false) :
    conclusion s = "❌ No API functions found with expected data in logs" := by
  unfold conclusion
  rw [List.filter_eq_nil_iff.mpr (by intro a ha; simpa using h a ha)]
  cases s with
  | nil => exact absurd rfl hne
  | cons x xs => simp

theorem pyTake_length (s : String) (n : Nat) : (pyTake s n).length ≤ n := by
  show (String.mk (s.data.take n)).length ≤ n
  rw [String.length_mk]
  exact (List.length_take n s.data).le.trans (Nat.min_le_left n s.data.length)

theorem strContains_of_eq (s pre mid post : String)
    (h : s.data = pre.data ++ mid.data ++ post.data) : strContains s mid := by
  show mid.data <:+: s.data
  rw [h]
  exact List.infix_append _ _ _

/-- Claim C1: for every log entry and every expected-field list,
`check_fields_in_response` reports a field as found if and only if the
lower-cased field name occurs as a substring of the lower-cased JSON
serialization of the whole log entry. -/
theorem c1_field_found_iff_substring (entry : Json) (fields : List String)
    (p : String × Bool) (hp : p ∈ check_fields_in_response entry fields) :
    p.2 = true ↔ strContains (lowerStr (dumps entry)) (lowerStr p.1) := by
  rw [check_mem_val hp]
  exact strContainsB_iff

/-- A log entry whose serialization contains the field name. -/
def entryW1 : Json := Json.obj [("coordinates", Json.str "here")]

theorem c1_field_found_witness :
    strContains (lowerStr (dumps entryW1)) (lowerStr "coordinates") :=
  (c1_field_found_iff_substring entryW1 ["coordinates"] ("coordinates", true)
    (by decide)).mp rfl

/-- Claim C2: the request body built by `search_logs` has `to` equal to
the current UTC time at second precision, `from` equal to `to` minus
exactly seven days, and a query string containing `env:prod` and the
exact phrase `handled request for <function name>`. -/
theorem c2_search_body_window_and_query (now_us : Int) (name : String) (limit : Nat) :
    (search_body now_us name limit).toTs = now_us / 1000000 ∧
    (search_body now_us name limit).fromTs = (search_body now_us name limit).toTs - 7 * 86400 ∧
    strContains (search_body now_us name limit).query "env:prod" ∧
    strContains (search_body now_us name limit).query ("handled request for " ++ name) := by
  refine ⟨rfl, ?_, ?_, ?_⟩
  · show (now_us - 7 * 86400 * 1000000) / 1000000 = now_us / 1000000 - 7 * 86400
    have h7 : now_us - 7 * 86400 * 1000000 = now_us + -(7 * 86400) * 1000000 := by ring
    rw [h7, Int.add_mul_ediv_right _ _ (by norm_num : (1000000 : Int) ≠ 0)]
    ring
  · refine strContains_of_eq _ "" "env:prod" (" \"handled request for " ++ name ++ "\"") ?_
    show (("env:prod \"handled request for " ++ name ++ "\"") : String).data = _
    have hsplit : ("env:prod \"handled request for " : String).data
        = ("env:prod" : String).data ++ (" \"handled request for " : String).data := by decide
    simp [String.data_append, hsplit]
  · refine strContains_of_eq _ "env:prod \"" ("handled request for " ++ name) "\"" ?_
    show (("env:prod \"handled request for " ++ name ++ "\"") : String).data = _
    have hsplit : ("env:prod \"handled request for " : String).data
        = ("env:prod \"" : String).data ++ ("handled request for " : String).data := by decide
    simp [String.data_append, hsplit]

/-- Claim C10, counterexample: with a duplicated expected field name the
returned dict has a single key, not the given list of keys — Python dicts
collapse duplicate assignments. -/
theorem c10_counterexample :
    (check_fields_in_response (Json.obj []) ["address", "address"]).map Prod.fst = ["address"] ∧
    ["address"] ≠ ["address", "address"] := by
  constructor
  · decide
  · decide

/-- Claim C10 (amended): for every log entry and every duplicate-free
expected-field list — all five hard-coded lists are duplicate-free — the
mapping returned by `check_fields_in_response` has as its keys exactly
the expected field names in their given order; duplicates in the input
collapse onto their first occurrence. -/
theorem c10_keys_exactly_fields (entry : Json) (fields : List String)
    (hnd : fields.Nodup) :
    (check_fields_in_response entry fields).map Prod.fst = fields :=
  check_keys hnd

theorem c10_keys_witness :
    (check_fields_in_response (Json.obj []) (apiAt 0).expected_fields).map Prod.fst
      = (apiAt 0).expected_fields :=
  c10_keys_exactly_fields (Json.obj []) (apiAt 0).expected_fields (by decide)

/-- Claim C3: a transport failure (`URLError`) or a non-2xx status
(`HTTPError`) makes `search_logs` return exactly the sentinel
`{"data": []}` without raising; the HTTP case prints the status code and
at most 500 characters of the error body; the affected function's summary
status resolves to `NO_LOGS`, and every function still gets exactly one
summary record. -/
theorem c3_search_failure_returns_sentinel (code : Nat) (errBody : String)
    (hasFp : Bool) (reason : String) (api : ApiFunction) :
    (search_logs_handle (HttpOutcome.httpError code errBody hasFp)).result = sentinel ∧
    (search_logs_handle (HttpOutcome.httpError code errBody hasFp)).printed
      = ["  ERROR: HTTP " ++ toString code,
         "  Response: " ++ (if hasFp then pyTake errBody 500 else "")] ∧
    (if hasFp then pyTake errBody 500 else "").length ≤ 500 ∧
    (search_logs_handle (HttpOutcome.urlError reason)).result = sentinel ∧
    process_function api sentinel = some (noLogsRecord api.name) ∧
    getStatusStr (noLogsRecord api.name) = some "NO_LOGS" ∧
    (∀ responses : List Json, responses.length = API_FUNCTIONS.length →
      (∀ r ∈ responses, (respData r).isSome = true) →
      (results_summary responses).map List.length = some API_FUNCTIONS.length) := by
  refine ⟨rfl, rfl, ?_, rfl, process_noLogs api rfl, getStatusStr_noLogs api.name, ?_⟩
  · cases hasFp
    · simp
    · simpa using pyTake_length errBody 500
  · intro responses hlen hresp
    unfold results_summary
    have hall : ∀ p ∈ API_FUNCTIONS.zip responses, (process_function p.1 p.2).isSome = true := by
      intro p hp
      rcases p with ⟨a, r⟩
      exact process_isSome (hresp r (List.of_mem_zip hp).2)
    rw [summarize_length _ hall, List.length_zip, hlen, Nat.min_self]

theorem c3_search_failure_witness :
    (search_logs_handle (HttpOutcome.httpError 403 "forbidden" true)).result = sentinel ∧
    (results_summary [sentinel, sentinel, sentinel, sentinel, sentinel]).map List.length
      = some API_FUNCTIONS.length := by
  constructor
  · exact (c3_search_failure_returns_sentinel 403 "forbidden" true "refused" (apiAt 0)).1
  · exact (c3_search_failure_returns_sentinel 403 "forbidden" true "refused" (apiAt 0)).2.2.2.2.2.2
      [sentinel, sentinel, sentinel, sentinel, sentinel] (by decide)
      (by intro r hr; fin_cases hr <;> decide)

/-- An environment that sets only `DD_API_KEY`. -/
def envCex : String → Option String :=
  fun k => if k = "DD_API_KEY" then some "from-env" else none

/-- Claim C4, counterexample: a config file that contains both required
keys, `DD_API_KEY` with an empty value; Python's `or` treats the empty
string as falsy, so the environment variable overrides the file's value,
contradicting the claim that the loaded credentials are exactly the
file's values whenever the file contains both keys. -/
theorem c4_counterexample :
    List.lookup "DD_API_KEY" (load_env ["DD_API_KEY=", "DD_APP_KEY=zzz"]) = some "" ∧
    List.lookup "DD_APP_KEY" (load_env ["DD_API_KEY=", "DD_APP_KEY=zzz"]) = some "zzz" ∧
    DD_API_KEY_of ["DD_API_KEY=", "DD_APP_KEY=zzz"] envCex = some "from-env" ∧
    (some "from-env" : Option String) ≠ some "" := by
  refine ⟨by decide, by decide, by decide, by decide⟩

/-- Claim C4 (amended): when the config file maps a required key to a
non-empty value, that value is loaded, overriding the environment; the
same-named environment variable is consulted exactly when the file lacks
the key or maps it to the empty string. -/
theorem c4_file_overrides_env (file_lines : List String)
    (env : String → Option String) (v : String) :
    (List.lookup "DD_API_KEY" (load_env file_lines) = some v → v ≠ "" →
      DD_API_KEY_of file_lines env = some v) ∧
    (List.lookup "DD_APP_KEY" (load_env file_lines) = some v → v ≠ "" →
      DD_APP_KEY_of file_lines env = some v) ∧
    (List.lookup "DD_API_KEY" (load_env file_lines) = none →
      DD_API_KEY_of file_lines env = env "DD_API_KEY") ∧
    (List.lookup "DD_APP_KEY" (load_env file_lines) = none →
      DD_APP_KEY_of file_lines env = env "DD_APP_KEY") ∧
    (List.lookup "DD_API_KEY" (load_env file_lines) = some "" →
      DD_API_KEY_of file_lines env = env "DD_API_KEY") ∧
    (List.lookup "DD_APP_KEY" (load_env file_lines) = some "" →
      DD_APP_KEY_of file_lines env = env "DD_APP_KEY") := by
  refine ⟨?_, ?_, ?_, ?_, ?_, ?_⟩ <;>
    first
    | (intro h hne; simp [DD_API_KEY_of, DD_APP_KEY_of, resolveCred, pyOr, h, hne])
    | (intro h; simp [DD_API_KEY_of, DD_APP_KEY_of, resolveCred, pyOr, h])

/-- A config file with comments, blanks and whitespace around `=`. -/
def linesW4 : List String := ["# comment", "", "DD_API_KEY = abc", "DD_APP_KEY=def"]

theorem c4_file_overrides_witness :
    DD_API_KEY_of linesW4 (fun _ => some "ignored") = some "abc" ∧
    DD_APP_KEY_of linesW4 (fun _ => some "ignored") = some "def" := by
  constructor
  · exact (c4_file_overrides_env linesW4 (fun _ => some "ignored") "abc").1 (by decide) (by decide)
  · exact (c4_file_overrides_env linesW4 (fun _ => some "ignored") "def").2.1 (by decide) (by decide)

/-- Claim C5: when a required credential is unset in both the config file
and the environment, the run ends in the fatal branch with the diagnostic
message and exit code 1, independently of any would-be responses (no
network call can influence it); when both credentials resolve to truthy
values the run always completes — missing credentials are the only fatal
path. -/
theorem c5_missing_credentials_fatal (file_lines : List String)
    (env : String → Option String) (responses responses2 : List Json) :
    ((List.lookup "DD_API_KEY" (load_env file_lines) = none ∧ env "DD_API_KEY" = none) ∨
     (List.lookup "DD_APP_KEY" (load_env file_lines) = none ∧ env "DD_APP_KEY" = none) →
      run_program file_lines env responses
          = some (RunResult.fatal "ERROR: DD_API_KEY and DD_APP_KEY must be set in .env file" 1) ∧
      run_program file_lines env responses = run_program file_lines env responses2) ∧
    (pyFalsy (DD_API_KEY_of file_lines env) = false →
     pyFalsy (DD_APP_KEY_of file_lines env) = false →
     ∀ s : List Json, results_summary responses = some s →
      run_program file_lines env responses = some (RunResult.completed s (conclusion s))) := by
  constructor
  · intro h
    have hfatal : pyFalsy (DD_API_KEY_of file_lines env) = true ∨
        pyFalsy (DD_APP_KEY_of file_lines env) = true := by
      rcases h with ⟨h1, h2⟩ | ⟨h1, h2⟩
      · exact Or.inl (by simp [DD_API_KEY_of, resolveCred, pyOr, h1, h2, pyFalsy])
      · exact Or.inr (by simp [DD_APP_KEY_of, resolveCred, pyOr, h1, h2, pyFalsy])
    rcases hfatal with hf | hf <;>
      exact ⟨by simp [run_program, hf], by simp [run_program, hf]⟩
  · intro h1 h2 s hs
    simp [run_program, h1, h2, hs]

theorem c5_missing_credentials_witness :
    run_program [] (fun _ => none) []
      = some (RunResult.fatal "ERROR: DD_API_KEY and DD_APP_KEY must be set in .env file" 1) :=
  ((c5_missing_credentials_fatal [] (fun _ => none) [] []).1 (Or.inl ⟨rfl, rfl⟩)).1

theorem getD_length_le (o : Option String) (fb : String)
    (ho : ∀ t, o = some t → t.length ≤ 2000) (hfb : fb.length ≤ 2000) :
    (o.getD fb).length ≤ 2000 := by
  cases o with
  | none => simpa using hfb
  | some t => simpa using ho t rfl

theorem findSome?_sample_length (l : List (Option Json)) (t : String)
    (h : l.findSome? (fun path =>
      match path with
      | some (Json.obj []) => none
      | some (Json.obj (kv :: kvs)) => some (pyTake (dumpsInd (Json.obj (kv :: kvs)) 0) 2000)
      | some (Json.str s) => if s = "" then none else some (pyTake s 2000)
      | _ => none) = some t) : t.length ≤ 2000 := by
  rcases List.exists_of_findSome?_eq_some h with ⟨a, _, hfa⟩
  rcases a with _ | j
  · simp at hfa
  · rcases j with _ | b | n | s' | xs | kvs
    · simp at hfa
    · simp at hfa
    · simp at hfa
    · by_cases hs : s' = ""
      · simp [hs] at hfa
      · simp only [hs, if_false] at hfa
        cases hfa
        exact pyTake_length _ 2000
    · simp at hfa
    · rcases kvs with _ | ⟨kv, kvs⟩
      · simp at hfa
      · simp only [] at hfa
        cases hfa
        exact pyTake_length _ 2000

theorem extract_eq_amended (entry : List (String × Json)) :
    extract_response_body entry = extract_spec_amended entry := by
  have hfun : (fun path : Option Json =>
      match path with
      | some (Json.obj []) => none
      | some (Json.obj (kv :: kvs)) => some (pyTake (dumpsInd (Json.obj (kv :: kvs)) 0) 2000)
      | some (Json.str s) => if s = "" then none else some (pyTake s 2000)
      | _ => none)
      = fun c : Option Json => c.bind sampleOfValue := by
    funext c
    rcases c with _ | j
    · rfl
    · rcases j with _ | b | n | s | xs | kvs
      · rfl
      · rfl
      · rfl
      · rfl
      · rfl
      · rcases kvs with _ | ⟨kv, kvs⟩ <;> rfl
  rcases hA : (List.lookup "attributes" entry).getD (Json.obj []) with _ | b | n | s1 | xs | akvs <;>
    simp only [extract_response_body, extract_spec_amended, hA]
  rcases hI : (List.lookup "attributes" akvs).getD (Json.obj []) with _ | b | n | s1 | xs | ikvs <;>
    simp only [hI]
  rw [hfun]

theorem extract_length_le (entry : List (String × Json)) (s : String)
    (h : extract_response_body entry = some s) : s.length ≤ 2000 := by
  rcases hA : (List.lookup "attributes" entry).getD (Json.obj []) with _ | b | n | s1 | xs | akvs <;>
    simp only [extract_response_body, hA] at h
  · exact Option.noConfusion h
  · exact Option.noConfusion h
  · exact Option.noConfusion h
  · exact Option.noConfusion h
  · exact Option.noConfusion h
  · rcases hI : (List.lookup "attributes" akvs).getD (Json.obj []) with _ | b | n | s1 | xs | ikvs <;>
      simp only [hI] at h
    · exact Option.noConfusion h
    · exact Option.noConfusion h
    · exact Option.noConfusion h
    · exact Option.noConfusion h
    · exact Option.noConfusion h
    · simp only [Option.some.injEq] at h
      subst h
      exact getD_length_le _ _ (fun t ht => findSome?_sample_length _ t ht) (pyTake_length _ 2000)

/-- An entry whose first present string-or-mapping candidate is the empty
mapping. -/
def entryCex6 : List (String × Json) :=
  [("attributes", Json.obj [("attributes", Json.obj []), ("message", Json.num 5)])]

/-- Claim C6, counterexample: in `entryCex6` the candidates at
`attributes.attributes.*` are absent and `attributes.message` is a
number, so the first *present* value of string-or-mapping type is the
empty mapping `attributes.attributes`, which the claim says is returned
pretty-printed; the code's truthiness test skips it and dumps the whole
`attributes` mapping instead. -/
theorem c6_counterexample :
    extract_spec_claimed entryCex6 = some "\x7b\x7d" ∧
    extract_response_body entryCex6
      = some "\x7b\n  \"attributes\": \x7b\x7d,\n  \"message\": 5\n\x7d" ∧
    extract_response_body entryCex6 ≠ extract_spec_claimed entryCex6 := by
  refine ⟨by decide, by decide, by decide⟩

/-- Claim C6 (amended): `extract_response_body` tries the candidate
locations `attributes.attributes.response_body`, `.response`, `.body`,
`attributes.message`, then `attributes.attributes`, in that order, and
returns the first present *non-empty* value of string or mapping type
(mappings pretty-printed to JSON); when no candidate qualifies it falls
back to the pretty-printed `attributes` mapping; the returned sample
never exceeds 2000 characters. -/
theorem c6_extract_sample (entry : List (String × Json)) :
    extract_response_body entry = extract_spec_amended entry ∧
    ∀ s : String, extract_response_body entry = some s → s.length ≤ 2000 :=
  ⟨extract_eq_amended entry, fun s h => extract_length_le entry s h⟩

/-- An entry whose sample comes from `attributes.message`. -/
def entryW6 : List (String × Json) :=
  [("attributes", Json.obj [("message", Json.str "hello")])]

theorem c6_extract_witness :
    extract_response_body entryW6 = extract_spec_amended entryW6 ∧
    ("hello" : String).length ≤ 2000 :=
  ⟨(c6_extract_sample entryW6).1, (c6_extract_sample entryW6).2 "hello" (by decide)⟩

theorem process_found_status (api : ApiFunction) {r l : Json} {rest : List Json}
    (hd : respData r = some (l :: rest))
    (hex : ∃ f ∈ api.expected_fields, strContains (lowerStr (dumps l)) (lowerStr f)) :
    ∃ rec, process_function api r = some rec ∧ statusIsFound rec = true := by
  refine ⟨_, process_found api hd, ?_⟩
  exact (statusIsFound_found _ _ _ _).mpr
    ((found_fields_ne_nil_iff l api.expected_fields).mpr hex)

/-- Claim C8, counterexample: the summary record appended on the no-logs
path (lines 195-200) has only four keys; `fields_missing` is absent, so
not every record contains all five fields. -/
theorem c8_counterexample :
    process_function (apiAt 0) sentinel = some (noLogsRecord "GetDeliveryOrder") ∧
    recordKeys (noLogsRecord "GetDeliveryOrder")
      = ["function", "logs_found", "fields_found", "status"] ∧
    "fields_missing" ∉ recordKeys (noLogsRecord "GetDeliveryOrder") := by
  refine ⟨rfl, rfl, by decide⟩

/-- Claim C8 (amended): every summary record contains the four fields
`function`, `logs_found`, `fields_found` and `status`, with `status`
drawn from the enum; records of functions whose search returned at least
one log additionally contain `fields_missing` (the `NO_LOGS` record omits
it). -/
theorem c8_summary_record_shape (api : ApiFunction) (r rec : Json)
    (h : process_function api r = some rec) :
    ("function" ∈ recordKeys rec ∧ "logs_found" ∈ recordKeys rec ∧
     "fields_found" ∈ recordKeys rec ∧ "status" ∈ recordKeys rec) ∧
    (getStatusStr rec = some "FOUND" ∨ getStatusStr rec = some "NO_EXPECTED_FIELDS" ∨
     getStatusStr rec = some "NO_LOGS") ∧
    (∀ (l : Json) (rest : List Json), respData r = some (l :: rest) →
      "fields_missing" ∈ recordKeys rec) := by
  cases hd : respData r with
  | none => simp [process_function, hd] at h
  | some logs =>
    cases logs with
    | nil =>
      rw [process_noLogs api hd, Option.some.injEq] at h
      subst h
      refine ⟨?_, ?_, ?_⟩
      · simp [noLogsRecord, recordKeys]
      · exact Or.inr (Or.inr (getStatusStr_noLogs api.name))
      · intro l rest hlr
        exact absurd hlr (by simp)
    | cons l rest =>
      rw [process_found api hd, Option.some.injEq] at h
      subst h
      refine ⟨?_, ?_, ?_⟩
      · simp [foundRecord, recordKeys]
      · rw [getStatusStr_found]
        by_cases hf :
            ((check_fields_in_response l api.expected_fields).filter (fun p => p.2)).map Prod.fst
              = []
        · exact Or.inr (Or.inl (by rw [if_pos hf]))
        · exact Or.inl (by rw [if_neg hf])
      · intro l' rest' _
        simp [foundRecord, recordKeys]

theorem c8_summary_record_witness :
    "status" ∈ recordKeys (noLogsRecord "GetDeliveryOrder") ∧
    (getStatusStr (noLogsRecord "GetDeliveryOrder") = some "FOUND" ∨
     getStatusStr (noLogsRecord "GetDeliveryOrder") = some "NO_EXPECTED_FIELDS" ∨
     getStatusStr (noLogsRecord "GetDeliveryOrder") = some "NO_LOGS") :=
  ⟨(c8_summary_record_shape (apiAt 0) sentinel (noLogsRecord "GetDeliveryOrder") rfl).1.2.2.2,
   (c8_summary_record_shape (apiAt 0) sentinel (noLogsRecord "GetDeliveryOrder") rfl).2.1⟩

/-- Claim C9: for a function whose search returned at least one log, the
summary status is `FOUND` exactly when at least one expected field occurs
in the first log entry — not necessarily all of them — and any summary in
which every record is `FOUND` produces the all-functions success verdict,
so partially-missing fields still count toward it. -/
theorem c9_found_iff_any_field (api : ApiFunction) (r l : Json) (rest : List Json)
    (h : respData r = some (l :: rest)) :
    ((process_function api r).any statusIsFound = true
      ↔ ∃ f ∈ api.expected_fields, strContains (lowerStr (dumps l)) (lowerStr f)) ∧
    (∀ s : List Json, (∀ x ∈ s, statusIsFound x = true) →
      conclusion s
        = "✅ All " ++ toString s.length ++ " API functions have logs with expected data") := by
  constructor
  · rw [process_found api h, Option.any_some, statusIsFound_found]
    exact found_fields_ne_nil_iff l api.expected_fields
  · intro s hs
    exact conclusion_all_found s hs

/-- A log entry containing only the first expected field of the first
function. -/
def entryW9 : Json := Json.obj [("coordinates", Json.str "x")]

/-- A search response with one log entry. -/
def respW9 : Json := Json.obj [("data", Json.arr [entryW9])]

theorem c9_found_witness :
    (process_function (apiAt 0) respW9).any statusIsFound = true :=
  (c9_found_iff_any_field (apiAt 0) respW9 entryW9 [] rfl).1.mpr
    ⟨"coordinates", by decide, by decide⟩

theorem summarize_cons (p : ApiFunction × Json) (rest : List (ApiFunction × Json))
    {rec : Json} {s : List Json} (hp : process_function p.1 p.2 = some rec)
    (hs : summarize rest = some s) : summarize (p :: rest) = some (rec :: s) := by
  simp [summarize, hp, hs]

/-- Claim C7: when all five searches return zero logs the verdict line is
the "No API functions found..." failure message; when all five return
logs whose first entry contains every expected field, the verdict line is
"All 5 API functions have logs with expected data". -/
theorem c7_final_verdict (r1 r2 r3 r4 r5 : Json) :
    (respData r1 = some [] → respData r2 = some [] → respData r3 = some [] →
     respData r4 = some [] → respData r5 = some [] →
      (results_summary [r1, r2, r3, r4, r5]).map conclusion
        = some "❌ No API functions found with expected data in logs") ∧
    ((∀ p ∈ API_FUNCTIONS.zip [r1, r2, r3, r4, r5],
        ∃ (l : Json) (rest : List Json), respData p.2 = some (l :: rest) ∧
          ∀ f ∈ p.1.expected_fields, strContains (lowerStr (dumps l)) (lowerStr f)) →
      (results_summary [r1, r2, r3, r4, r5]).map conclusion
        = some "✅ All 5 API functions have logs with expected data") := by
  have hzip : API_FUNCTIONS.zip [r1, r2, r3, r4, r5]
      = [(apiAt 0, r1), (apiAt 1, r2), (apiAt 2, r3), (apiAt 3, r4), (apiAt 4, r5)] := rfl
  have hres : results_summary [r1, r2, r3, r4, r5]
      = summarize [(apiAt 0, r1), (apiAt 1, r2), (apiAt 2, r3), (apiAt 3, r4), (apiAt 4, r5)] := rfl
  constructor
  · intro h1 h2 h3 h4 h5
    have hsum : summarize [(apiAt 0, r1), (apiAt 1, r2), (apiAt 2, r3), (apiAt 3, r4), (apiAt 4, r5)]
        = some [noLogsRecord (apiAt 0).name, noLogsRecord (apiAt 1).name,
                noLogsRecord (apiAt 2).name, noLogsRecord (apiAt 3).name,
                noLogsRecord (apiAt 4).name] :=
      summarize_cons _ _ (process_noLogs (apiAt 0) h1)
        (summarize_cons _ _ (process_noLogs (apiAt 1) h2)
          (summarize_cons _ _ (process_noLogs (apiAt 2) h3)
            (summarize_cons _ _ (process_noLogs (apiAt 3) h4)
              (summarize_cons _ _ (process_noLogs (apiAt 4) h5) rfl))))
    rw [hres, hsum, Option.map_some']
    rw [conclusion_none_found _ (by simp)
      (by intro x hx; fin_cases hx <;> exact statusIsFound_noLogs _)]
  · intro hall
    obtain ⟨l1, t1, hd1, hf1⟩ := hall (apiAt 0, r1) (by rw [hzip]; simp)
    obtain ⟨l2, t2, hd2, hf2⟩ := hall (apiAt 1, r2) (by rw [hzip]; simp)
    obtain ⟨l3, t3, hd3, hf3⟩ := hall (apiAt 2, r3) (by rw [hzip]; simp)
    obtain ⟨l4, t4, hd4, hf4⟩ := hall (apiAt 3, r4) (by rw [hzip]; simp)
    obtain ⟨l5, t5, hd5, hf5⟩ := hall (apiAt 4, r5) (by rw [hzip]; simp)
    replace hd1 : respData r1 = some (l1 :: t1) := hd1
    replace hd2 : respData r2 = some (l2 :: t2) := hd2
    replace hd3 : respData r3 = some (l3 :: t3) := hd3
    replace hd4 : respData r4 = some (l4 :: t4) := hd4
    replace hd5 : respData r5 = some (l5 :: t5) := hd5
    replace hf1 : ∀ f ∈ (apiAt 0).expected_fields,
      strContains (lowerStr (dumps l1)) (lowerStr f) := hf1
    replace hf2 : ∀ f ∈ (apiAt 1).expected_fields,
      strContains (lowerStr (dumps l2)) (lowerStr f) := hf2
    replace hf3 : ∀ f ∈ (apiAt 2).expected_fields,
      strContains (lowerStr (dumps l3)) (lowerStr f) := hf3
    replace hf4 : ∀ f ∈ (apiAt 3).expected_fields,
      strContains (lowerStr (dumps l4)) (lowerStr f) := hf4
    replace hf5 : ∀ f ∈ (apiAt 4).expected_fields,
      strContains (lowerStr (dumps l5)) (lowerStr f) := hf5
    obtain ⟨rec1, hp1, hs1⟩ := process_found_status (apiAt 0) hd1
      ⟨"coordinates", by decide, hf1 "coordinates" (by decide)⟩
    obtain ⟨rec2, hp2, hs2⟩ := process_found_status (apiAt 1) hd2
      ⟨"orders", by decide, hf2 "orders" (by decide)⟩
    obtain ⟨rec3, hp3, hs3⟩ := process_found_status (apiAt 2) hd3
      ⟨"routeSegments", by decide, hf3 "routeSegments" (by decide)⟩
    obtain ⟨rec4, hp4, hs4⟩ := process_found_status (apiAt 3) hd4
      ⟨"locations", by decide, hf4 "locations" (by decide)⟩
    obtain ⟨rec5, hp5, hs5⟩ := process_found_status (apiAt 4) hd5
      ⟨"driver", by decide, hf5 "driver" (by decide)⟩
    have hsum : summarize [(apiAt 0, r1), (apiAt 1, r2), (apiAt 2, r3), (apiAt 3, r4), (apiAt 4, r5)]
        = some [rec1, rec2, rec3, rec4, rec5] :=
      summarize_cons _ _ hp1
        (summarize_cons _ _ hp2
          (summarize_cons _ _ hp3
            (summarize_cons _ _ hp4
              (summarize_cons _ _ hp5 rfl))))
    rw [hres, hsum, Option.map_some']
    rw [conclusion_all_found [rec1, rec2, rec3, rec4, rec5]
      (by intro x hx; fin_cases hx <;> assumption)]
    show some ("✅ All " ++ toString (5 : Nat) ++ " API functions have logs with expected data")
      = some "✅ All 5 API functions have logs with expected data"
    decide

/-- A log entry containing every expected field of the descriptor. -/
def entryAllFields (api : ApiFunction) : Json :=
  Json.obj (api.expected_fields.map (fun f => (f, Json.str "x")))

/-- A search response whose single log entry contains every expected
field of the descriptor. -/
def respAllFields (api : ApiFunction) : Json :=
  Json.obj [("data", Json.arr [entryAllFields api])]

theorem c7_final_verdict_witness :
    (results_summary [sentinel, sentinel, sentinel, sentinel, sentinel]).map conclusion
      = some "❌ No API functions found with expected data in logs" ∧
    (results_summary [respAllFields (apiAt 0), respAllFields (apiAt 1), respAllFields (apiAt 2),
        respAllFields (apiAt 3), respAllFields (apiAt 4)]).map conclusion
      = some "✅ All 5 API functions have logs with expected data" := by
  constructor
  · exact (c7_final_verdict sentinel sentinel sentinel sentinel sentinel).1 rfl rfl rfl rfl rfl
  · refine (c7_final_verdict (respAllFields (apiAt 0)) (respAllFields (apiAt 1))
      (respAllFields (apiAt 2)) (respAllFields (apiAt 3)) (respAllFields (apiAt 4))).2 ?_
    have hzipw : API_FUNCTIONS.zip [respAllFields (apiAt 0), respAllFields (apiAt 1),
        respAllFields (apiAt 2), respAllFields (apiAt 3), respAllFields (apiAt 4)]
        = [(apiAt 0, respAllFields (apiAt 0)), (apiAt 1, respAllFields (apiAt 1)),
           (apiAt 2, respAllFields (apiAt 2)), (apiAt 3, respAllFields (apiAt 3)),
           (apiAt 4, respAllFields (apiAt 4))] := rfl
    intro p hp
    rw [hzipw] at hp
    fin_cases hp
    · exact ⟨entryAllFields (apiAt 0), [], rfl, by decide⟩
    · exact ⟨entryAllFields (apiAt 1), [], rfl, by decide⟩
    · exact ⟨entryAllFields (apiAt 2), [], rfl, by decide⟩
    · exact ⟨entryAllFields (apiAt 3), [], rfl, by decide⟩
    · exact ⟨entryAllFields (apiAt 4), [], rfl, by decide⟩
